import Mathlib

/-!
Verification of the Faro Fino news-monitoring bot (src/bot.py) against its
natural-language specification.  The Python source is shallowly embedded:
pure data are Lean structures, the filtering loop of process_news is a
structural recursion, and the effectful pipeline (fetch, send, save) is
modelled by explicit oracles for the external transport together with an
Except value whose error constructor records an uncaught Python exception
escaping the function.
-/

/-- An article as produced by fetch_news: title, link, source and publish
date.  The date is optional because the filter in process_news guards it
with Python truthiness (article['date'] and article['date'] < date_limit);
a missing date is modelled as none.  Timestamps are integers (seconds). -/
structure Article where
  title : String
  link : String
  source : String
  date : Option Int
deriving DecidableEq, Repr

/-- A selected article: process_news stores the matching keywords in the
article dict under found_keywords before appending it to new_articles. -/
structure Tagged where
  article : Article
  found_keywords : List String
deriving DecidableEq, Repr

/-- The persistent configuration record of bot.py: owner_id, keywords,
monitoring_on and the history set of already-notified links. -/
structure Config where
  owner_id : Option Int
  keywords : List String
  monitoring_on : Bool
  history : Finset String
deriving DecidableEq

/-- DIAS_FILTRO_NOTICIAS = 3 (bot.py line 24). -/
def DIAS_FILTRO_NOTICIAS : Int := 3

/-- Seconds in a day, used to express timedelta(days=3) on integer
timestamps. -/
def secondsPerDay : Int := 86400

/-- date_limit = datetime.now(TIMEZONE_BR) - timedelta(days=DIAS_FILTRO_NOTICIAS)
(bot.py line 106), on integer timestamps. -/
def dateLimit (now : Int) : Int := now - DIAS_FILTRO_NOTICIAS * secondsPerDay

/-- Python str.lower, modelled as ASCII lowercasing of the character list
of a string (the inputs of interest are ASCII; this mirrors
String.toLower but reduces structurally). -/
def lowerChars (s : String) : List Char := s.data.map Char.toLower

/-- text_to_check = f"{article['title']} {article['source']}".lower()
(bot.py line 110), as a lower-cased character list. -/
def text_to_check (a : Article) : List Char :=
  lowerChars (a.title ++ " " ++ a.source)

/-- The Python membership test k.lower() in text_to_check (bot.py line 111):
case-insensitive substring containment, modelled on character lists. -/
def kwMatches (k : String) (a : Article) : Bool :=
  decide (lowerChars k <:+: text_to_check a)

/-- The date part of the skip condition on bot.py line 109:
(article['date'] and article['date'] < date_limit).  A missing date is
falsy in Python, so the conjunction is false and the article is kept. -/
def dateTooOld (a : Article) (limit : Int) : Bool :=
  match a.date with
  | none => false
  | some d => decide (d < limit)

/-- The filtering loop of process_news (bot.py lines 108-114): walk the
fetched articles in order; skip an article whose link is in the (growing)
history or whose date is present and older than the limit; if any keyword
matches, tag it with the list of matching keywords, append it to the
output and add its link to the working history.  Returns the selected
articles in input order together with the updated history. -/
def selectArticles (kws : List String) (limit : Int) :
    List Article → Finset String → List Tagged × Finset String
  | [], hist => ([], hist)
  | a :: rest, hist =>
    if a.link ∈ hist ∨ dateTooOld a limit = true then
      selectArticles kws limit rest hist
    else if kws.any (fun k => kwMatches k a) = true then
      (Tagged.mk a (kws.filter (fun k => kwMatches k a)) ::
          (selectArticles kws limit rest (insert a.link hist)).1,
        (selectArticles kws limit rest (insert a.link hist)).2)
    else
      selectArticles kws limit rest hist

/-- Oracles for the external effects of one cycle.  fetchItems are the RSS
items the parse loop in fetch_news appended before the try block ended;
fetchFailed records whether an exception was raised (and caught) inside
that try block.  sendOk says whether the n-th bot.send_message call of the
cycle succeeds (false models the transport raising).  saveOk says whether
save_config succeeds. -/
structure Env where
  fetchItems : List Article
  fetchFailed : Bool
  sendOk : Nat → Bool
  saveOk : Bool

/-- fetch_news (bot.py lines 70-90): an empty keyword list short-circuits
to an empty result before any network call; otherwise the whole
request/parse runs inside a try whose except clause only logs, so the
items appended so far are returned whether or not an exception occurred
mid-parse.  The caught-failure flag is deliberately ignored. -/
def fetch_news (keywords : List String) (items : List Article)
    (_fetchFailed : Bool) : List Article :=
  if keywords.isEmpty then [] else items

/-- Observable effects of one process_news call: whether the network fetch
ran, how many send_message calls succeeded, which articles were delivered,
and the configuration written by save_config (none if save never ran or
failed). -/
structure Obs where
  didFetch : Bool
  sentMsgs : Nat
  delivered : List Tagged
  saved : Option Config
deriving DecidableEq

/-- The empty observation: nothing fetched, nothing sent, nothing saved. -/
def Obs.init : Obs := ⟨false, 0, [], none⟩

/-- send_notifications (bot.py lines 125-134): strictly sequential sends in
list order.  Building the message first calls article['date'].strftime,
which raises if the date is missing (none); the send itself raises when
the transport fails.  There is no try/except in the function, so the first
failure aborts the remaining articles.  Returns (articles delivered before
any failure, next send counter, true iff no exception was raised). -/
def send_notifications (sendOk : Nat → Bool) :
    List Tagged → Nat → List Tagged × Nat × Bool
  | [], n => ([], n, true)
  | t :: rest, n =>
    match t.article.date with
    | none => ([], n, false)
    | some _ =>
      if sendOk n then
        (t :: (send_notifications sendOk rest (n + 1)).1,
          (send_notifications sendOk rest (n + 1)).2.1,
          (send_notifications sendOk rest (n + 1)).2.2)
      else ([], n + 1, false)

/-- Truthiness of owner_id on bot.py line 95: None and 0 are falsy. -/
def ownerFalsy : Option Int → Bool
  | none => true
  | some i => i == 0

/-- process_news (bot.py lines 92-123).  The function contains no
try/except of its own, so any raise from a send_message call or from
save_config escapes it; an escape is modelled as Except.error carrying the
effects observed up to that point.  Steps, in source order: the no-keyword
/ no-owner short circuit (with a message only on manual runs), the
monitoring gate for automatic runs, fetch_news, the filtering loop
(selectArticles), send_notifications on the selected articles (the
if new_articles: guard is behaviourally identical because sending an empty
batch performs no sends), save_config of the config with the grown
history, and on automatic runs the cycle-summary ping message. -/
def process_news (cfg : Config) (env : Env) (isManual : Bool) (now : Int) :
    Except Obs Obs :=
  if ownerFalsy cfg.owner_id || cfg.keywords.isEmpty then
    if isManual then
      if env.sendOk 0 then Except.ok { Obs.init with sentMsgs := 1 }
      else Except.error Obs.init
    else Except.ok Obs.init
  else if !cfg.monitoring_on && !isManual then
    Except.ok Obs.init
  else
    let found := fetch_news cfg.keywords env.fetchItems env.fetchFailed
    let sel := selectArticles cfg.keywords (dateLimit now) found cfg.history
    let sends := send_notifications env.sendOk sel.1 0
    let o1 : Obs := ⟨true, sends.1.length, sends.1, none⟩
    if sends.2.2 then
      if env.saveOk then
        let o2 : Obs := { o1 with saved := some { cfg with history := sel.2 } }
        if isManual then Except.ok o2
        else if env.sendOk sends.2.1 then
          Except.ok { o2 with sentMsgs := o2.sentMsgs + 1 }
        else Except.error o2
      else Except.error o1
    else Except.error o1

/-- Collapse a cycle result to its observable effects, whether or not an
exception escaped. -/
def runObs : Except Obs Obs → Obs
  | Except.ok o => o
  | Except.error o => o

/-- monitor_loop (bot.py lines 137-141) is
while True: await process_news(context); await asyncio.sleep(INTERVAL)
with no exception handling, running in a task created by
asyncio.create_task; an exception escaping process_news ends the task.
monitorAlive cfgs envs nows k is true iff iteration k is still reached,
i.e. every earlier automatic cycle returned without raising. -/
def monitorAlive (cfgs : Nat → Config) (envs : Nat → Env)
    (nows : Nat → Int) : Nat → Bool
  | 0 => true
  | k + 1 =>
    monitorAlive cfgs envs nows k &&
      (process_news (cfgs k) (envs k) false (nows k)).isOk

/-- The JSON record as stored on disk; history is serialized as a list
(save_config, bot.py line 42). -/
structure StoredRecord where
  owner_id : Option Int
  keywords : List String
  monitoring_on : Bool
  history : List String
deriving DecidableEq

/-- State of the backing store faro_fino_config.json: absent, present but
unreadable/unparsable, or a well-formed record. -/
inductive Store where
  | missing
  | corrupt
  | valid (r : StoredRecord)

/-- DEFAULT_CONFIG (bot.py line 29). -/
def DEFAULT_CONFIG : Config := ⟨none, [], false, ∅⟩

/-- load_config (bot.py lines 32-38): if the file does not exist, return a
copy of DEFAULT_CONFIG.  Otherwise json.load runs with no surrounding
try/except, so an unreadable or unparsable file raises out of load_config
(modelled as Except.error).  On success the history list is converted to a
set. -/
def load_config : Store → Except Unit Config
  | Store.missing => Except.ok DEFAULT_CONFIG
  | Store.corrupt => Except.error ()
  | Store.valid r =>
      Except.ok ⟨r.owner_id, r.keywords, r.monitoring_on, r.history.toFinset⟩

/-- Parse outcome of a backup document in restore_handler: json.loads
raising (unparsable bytes), a parsed value that is not a dict (so
backup_data.get raises AttributeError), or a dict whose two expected keys
may each be present or absent. -/
inductive RestoreDoc where
  | unparsable
  | notDict
  | dict (keywords : Option (List String)) (monitoring_on : Option Bool)

/-- restore_handler core (bot.py lines 210-221): inside the try,
config['keywords'] = backup_data.get('keywords', []) and
config['monitoring_on'] = backup_data.get('monitoring_on', False), then
save_config; the except branch replies with an error and leaves the
config unchanged.  Returns the resulting config and whether the success
reply was sent (true) or the error reply (false). -/
def restore_handler (cfg : Config) (doc : RestoreDoc) : Config × Bool :=
  match doc with
  | RestoreDoc.unparsable => (cfg, false)
  | RestoreDoc.notDict => (cfg, false)
  | RestoreDoc.dict kw m =>
      ({ cfg with keywords := kw.getD [], monitoring_on := m.getD false }, true)

/-- text_handler keyword mutation (bot.py lines 177-197): the current
keyword list is read into a set; an @-command unions the parsed items into
it, a #-command removes them; the result is written back as
sorted(list(keywords)).  items stands for the comma-split, stripped,
non-empty items of the message text. -/
def text_handler (cfg : Config) (isAdd : Bool) (items : List String) :
    Config :=
  let kwSet : Finset String := cfg.keywords.toFinset
  let newSet : Finset String :=
    if isAdd then kwSet ∪ items.toFinset else kwSet \ items.toFinset
  { cfg with keywords := newSet.sort (fun a b => a ≤ b) }

/-- Concrete article used in witnesses: the spec's CHUVA example. -/
def artChuva : Article := ⟨"Forte CHUVA atinge o litoral", "L1", "G1", some 400000⟩

/-- Concrete article with a missing publish date. -/
def artUndated : Article := ⟨"Chuva sem data", "L3", "G1", none⟩

/-- Concrete recent article matching the keyword enchente. -/
def artEnchente : Article := ⟨"Enchente no Sul", "L4", "G1", some 400000⟩

/-- First article of a two-article batch matching alpha. -/
def artAlpha1 : Article := ⟨"Alpha um", "L5", "S", some 400000⟩

/-- Second article of a two-article batch matching alpha. -/
def artAlpha2 : Article := ⟨"Alpha dois", "L6", "S", some 400000⟩

/-- Owner set, one keyword, monitoring on, empty history. -/
def cfgFail : Config := ⟨some 7, ["enchente"], true, ∅⟩

/-- Owner set, one keyword, monitoring off, empty history. -/
def cfgMonOff : Config := ⟨some 7, ["enchente"], false, ∅⟩

/-- Owner set, keyword alpha, monitoring on, empty history. -/
def cfgAlpha : Config := ⟨some 7, ["alpha"], true, ∅⟩

/-- Subscription state of the spec's restore scenario. -/
def cfgRestore : Config := ⟨some 42, ["x"], true, {"X"}⟩

/-- Environment whose transport always fails. -/
def envFail : Env := ⟨[artEnchente], false, fun _ => false, true⟩

/-- Environment whose transport and save always succeed. -/
def envOk : Env := ⟨[artEnchente], false, fun _ => true, true⟩

/-- Environment with two matching articles where only the first send
(counter 0) fails. -/
def envMidFail : Env := ⟨[artAlpha1, artAlpha2], false, fun n => n != 0, true⟩

theorem select_hist_subset (kws : List String) (limit : Int) :
    ∀ (batch : List Article) (hist : Finset String),
      hist ⊆ (selectArticles kws limit batch hist).2 := by
  intro batch
  induction batch with
  | nil => intro hist; simp [selectArticles]
  | cons a rest ih =>
    intro hist
    by_cases h1 : a.link ∈ hist ∨ dateTooOld a limit = true
    · simpa [selectArticles, h1] using ih hist
    · by_cases h2 : kws.any (fun k => kwMatches k a) = true
      · simp only [selectArticles, if_neg h1, if_pos h2]
        exact (Finset.subset_insert _ _).trans (ih (insert a.link hist))
      · simpa [selectArticles, h1, h2] using ih hist

theorem select_sound (kws : List String) (limit : Int) :
    ∀ (batch : List Article) (hist : Finset String) (t : Tagged),
      t ∈ (selectArticles kws limit batch hist).1 →
      t.article ∈ batch ∧ t.article.link ∉ hist ∧
        dateTooOld t.article limit = false ∧
        kws.any (fun k => kwMatches k t.article) = true ∧
        t.found_keywords = kws.filter (fun k => kwMatches k t.article) := by
  intro batch
  induction batch with
  | nil => intro hist t ht; simp [selectArticles] at ht
  | cons a rest ih =>
    intro hist t ht
    by_cases h1 : a.link ∈ hist ∨ dateTooOld a limit = true
    · simp only [selectArticles, if_pos h1] at ht
      obtain ⟨hmem, hlink, hdate, hany, hfk⟩ := ih hist t ht
      exact ⟨List.mem_cons_of_mem _ hmem, hlink, hdate, hany, hfk⟩
    · have hnot := not_or.mp h1
      have hlinkA : a.link ∉ hist := hnot.1
      have hdateA : dateTooOld a limit = false :=
        Bool.not_eq_true _ ▸ hnot.2
      by_cases h2 : kws.any (fun k => kwMatches k a) = true
      · simp only [selectArticles, if_neg h1, if_pos h2, List.mem_cons] at ht
        rcases ht with heq | hmem
        · subst heq
          exact ⟨List.mem_cons_self _ _, hlinkA, hdateA, h2, rfl⟩
        · obtain ⟨hmemR, hlink, hdate, hany, hfk⟩ := ih (insert a.link hist) t hmem
          exact ⟨List.mem_cons_of_mem _ hmemR,
            fun hh => hlink (Finset.mem_insert_of_mem hh), hdate, hany, hfk⟩
      · simp only [selectArticles, if_neg h1, if_neg h2] at ht
        obtain ⟨hmem, hlink, hdate, hany, hfk⟩ := ih hist t ht
        exact ⟨List.mem_cons_of_mem _ hmem, hlink, hdate, hany, hfk⟩

theorem select_complete (kws : List String) (limit : Int) :
    ∀ (batch : List Article) (hist : Finset String) (a : Article),
      (batch.map Article.link).Nodup → a ∈ batch → a.link ∉ hist →
      dateTooOld a limit = false → kws.any (fun k => kwMatches k a) = true →
      Tagged.mk a (kws.filter (fun k => kwMatches k a)) ∈
        (selectArticles kws limit batch hist).1 := by
  intro batch
  induction batch with
  | nil => intro hist a _ hmem; exact absurd hmem (List.not_mem_nil a)
  | cons b rest ih =>
    intro hist a hnd hmem hlink hdate hany
    rw [List.map_cons, List.nodup_cons] at hnd
    rcases List.mem_cons.mp hmem with heq | hmem'
    · subst heq
      have h1 : ¬ (a.link ∈ hist ∨ dateTooOld a limit = true) := by
        rw [not_or, hdate]; exact ⟨hlink, by simp⟩
      simp only [selectArticles, if_neg h1, if_pos hany]
      exact List.mem_cons_self _ _
    · by_cases h1 : b.link ∈ hist ∨ dateTooOld b limit = true
      · simp only [selectArticles, if_pos h1]
        exact ih hist a hnd.2 hmem' hlink hdate hany
      · by_cases h2 : kws.any (fun k => kwMatches k b) = true
        · simp only [selectArticles, if_neg h1, if_pos h2, List.mem_cons]
          refine Or.inr (ih (insert b.link hist) a hnd.2 hmem' ?_ hdate hany)
          intro hin
          rcases Finset.mem_insert.mp hin with hEq | hmemH
          · exact hnd.1 (hEq ▸ List.mem_map_of_mem Article.link hmem')
          · exact hlink hmemH
        · simp only [selectArticles, if_neg h1, if_neg h2]
          exact ih hist a hnd.2 hmem' hlink hdate hany

theorem select_again_nil (kws : List String) (limit : Int) :
    ∀ (batch : List Article) (hist H' : Finset String),
      (selectArticles kws limit batch hist).2 ⊆ H' →
      (selectArticles kws limit batch H').1 = [] := by
  intro batch
  induction batch with
  | nil => intro hist H' _; simp [selectArticles]
  | cons a rest ih =>
    intro hist H' hsub
    by_cases h1 : a.link ∈ hist ∨ dateTooOld a limit = true
    · simp only [selectArticles, if_pos h1] at hsub
      rcases h1 with hmem | hold
      · have haH : a.link ∈ H' :=
          hsub (select_hist_subset kws limit rest hist hmem)
        simp only [selectArticles, if_pos (Or.inl haH : a.link ∈ H' ∨ dateTooOld a limit = true)]
        exact ih hist H' hsub
      · simp only [selectArticles, if_pos (Or.inr hold : a.link ∈ H' ∨ dateTooOld a limit = true)]
        exact ih hist H' hsub
    · by_cases h2 : kws.any (fun k => kwMatches k a) = true
      · simp only [selectArticles, if_neg h1, if_pos h2] at hsub
        have haH : a.link ∈ H' :=
          hsub (select_hist_subset kws limit rest (insert a.link hist)
            (Finset.mem_insert_self _ _))
        simp only [selectArticles, if_pos (Or.inl haH : a.link ∈ H' ∨ dateTooOld a limit = true)]
        exact ih (insert a.link hist) H' hsub
      · simp only [selectArticles, if_neg h1, if_neg h2] at hsub
        by_cases hH : a.link ∈ H' ∨ dateTooOld a limit = true
        · simp only [selectArticles, if_pos hH]
          exact ih hist H' hsub
        · simp only [selectArticles, if_neg hH, if_neg h2]
          exact ih hist H' hsub

theorem select_links_nodup (kws : List String) (limit : Int) :
    ∀ (batch : List Article) (hist : Finset String),
      ((selectArticles kws limit batch hist).1.map
        (fun t => t.article.link)).Nodup := by
  intro batch
  induction batch with
  | nil => intro hist; simp [selectArticles]
  | cons a rest ih =>
    intro hist
    by_cases h1 : a.link ∈ hist ∨ dateTooOld a limit = true
    · simpa [selectArticles, h1] using ih hist
    · by_cases h2 : kws.any (fun k => kwMatches k a) = true
      · simp only [selectArticles, if_neg h1, if_pos h2, List.map_cons,
          List.nodup_cons]
        refine ⟨?_, ih (insert a.link hist)⟩
        intro hin
        obtain ⟨t, htmem, hteq⟩ := List.mem_map.mp hin
        have hout := (select_sound kws limit rest (insert a.link hist) t htmem).2.1
        rw [hteq] at hout
        exact hout (Finset.mem_insert_self _ _)
      · simpa [selectArticles, h1, h2] using ih hist

theorem any_filter_ne_nil {α : Type} (l : List α) (p : α → Bool) :
    l.any p = true → l.filter p ≠ [] := by
  intro h hnil
  obtain ⟨x, hx, hpx⟩ := List.any_eq_true.mp h
  have : x ∈ l.filter p := List.mem_filter.mpr ⟨hx, hpx⟩
  rw [hnil] at this
  exact List.not_mem_nil x this

theorem send_all_ok (sendOk : Nat → Bool) :
    ∀ (arts : List Tagged) (n0 : Nat),
      (∀ t ∈ arts, t.article.date.isSome = true) →
      (∀ n, sendOk n = true) →
      send_notifications sendOk arts n0 = (arts, n0 + arts.length, true) := by
  intro arts
  induction arts with
  | nil => intro n0 _ _; simp [send_notifications]
  | cons t rest ih =>
    intro n0 hdates hsend
    have hd : t.article.date.isSome = true := hdates t (List.mem_cons_self _ _)
    obtain ⟨d, hdeq⟩ := Option.isSome_iff_exists.mp hd
    have hrest : ∀ u ∈ rest, u.article.date.isSome = true :=
      fun u hu => hdates u (List.mem_cons_of_mem _ hu)
    simp only [send_notifications, hdeq, hsend n0, if_pos]
    rw [ih (n0 + 1) hrest hsend]
    simp [Nat.add_comm, Nat.add_assoc, Nat.add_left_comm]

theorem send_delivered_takes (sendOk : Nat → Bool) :
    ∀ (arts : List Tagged) (n0 : Nat),
      ∃ r, (send_notifications sendOk arts n0).1 ++ r = arts := by
  intro arts
  induction arts with
  | nil => intro n0; exact ⟨[], rfl⟩
  | cons t rest ih =>
    intro n0
    match hdeq : t.article.date with
    | none => exact ⟨t :: rest, by simp [send_notifications, hdeq]⟩
    | some d =>
      by_cases hs : sendOk n0 = true
      · obtain ⟨r, hr⟩ := ih (n0 + 1)
        exact ⟨r, by simp [send_notifications, hdeq, hs, hr]⟩
      · exact ⟨t :: rest, by simp [send_notifications, hdeq, hs]⟩

theorem send_flag_all (sendOk : Nat → Bool) :
    ∀ (arts : List Tagged) (n0 : Nat),
      (send_notifications sendOk arts n0).2.2 = true →
      (send_notifications sendOk arts n0).1 = arts := by
  intro arts
  induction arts with
  | nil => intro n0 _; rfl
  | cons t rest ih =>
    intro n0 hflag
    match hdeq : t.article.date with
    | none => simp [send_notifications, hdeq] at hflag
    | some d =>
      by_cases hs : sendOk n0 = true
      · simp only [send_notifications, hdeq, hs, if_pos] at hflag ⊢
        rw [ih (n0 + 1) hflag]
      · simp [send_notifications, hdeq, hs] at hflag

theorem process_news_shortcircuit (cfg : Config) (env : Env) (m : Bool)
    (now : Int)
    (hb : (ownerFalsy cfg.owner_id || cfg.keywords.isEmpty) = true) :
    process_news cfg env m now =
      if m then
        if env.sendOk 0 then Except.ok { Obs.init with sentMsgs := 1 }
        else Except.error Obs.init
      else Except.ok Obs.init := by
  simp [process_news, hb]

theorem process_news_gate (cfg : Config) (env : Env) (m : Bool) (now : Int)
    (hb : (ownerFalsy cfg.owner_id || cfg.keywords.isEmpty) = false)
    (hgate : (!cfg.monitoring_on && !m) = true) :
    process_news cfg env m now = Except.ok Obs.init := by
  simp [process_news, hb, hgate]

theorem process_news_main (cfg : Config) (env : Env) (m : Bool) (now : Int)
    (hb : (ownerFalsy cfg.owner_id || cfg.keywords.isEmpty) = false)
    (hgate : (!cfg.monitoring_on && !m) = false) :
    process_news cfg env m now =
      (let sel := selectArticles cfg.keywords (dateLimit now)
          (fetch_news cfg.keywords env.fetchItems env.fetchFailed) cfg.history
       let sends := send_notifications env.sendOk sel.1 0
       let o1 : Obs := ⟨true, sends.1.length, sends.1, none⟩
       if sends.2.2 then
         if env.saveOk then
           let o2 : Obs := { o1 with saved := some { cfg with history := sel.2 } }
           if m then Except.ok o2
           else if env.sendOk sends.2.1 then
             Except.ok { o2 with sentMsgs := o2.sentMsgs + 1 }
           else Except.error o2
         else Except.error o1
       else Except.error o1) := by
  simp [process_news, hb, hgate]

theorem keywords_isEmpty_false (cfg : Config)
    (hb : (ownerFalsy cfg.owner_id || cfg.keywords.isEmpty) = false) :
    cfg.keywords.isEmpty = false :=
  (Bool.or_eq_false_iff.mp hb).2

theorem fetch_news_nonempty_kw (cfg : Config) (env : Env)
    (hb : (ownerFalsy cfg.owner_id || cfg.keywords.isEmpty) = false) :
    fetch_news cfg.keywords env.fetchItems env.fetchFailed = env.fetchItems := by
  simp [fetch_news, keywords_isEmpty_false cfg hb]

theorem process_no_crash (cfg : Config) (env : Env) (m : Bool) (now : Int)
    (hsend : ∀ n, env.sendOk n = true) (hsave : env.saveOk = true)
    (hdates : ∀ a ∈ env.fetchItems, a.date.isSome = true) :
    (process_news cfg env m now).isOk = true := by
  by_cases hb : (ownerFalsy cfg.owner_id || cfg.keywords.isEmpty) = true
  · rw [process_news_shortcircuit cfg env m now hb]
    cases m <;> simp [hsend 0, Except.isOk, Except.toBool]
  · have hb' : (ownerFalsy cfg.owner_id || cfg.keywords.isEmpty) = false := by
      simpa using hb
    by_cases hgate : (!cfg.monitoring_on && !m) = true
    · rw [process_news_gate cfg env m now hb' hgate]; rfl
    · have hgate' : (!cfg.monitoring_on && !m) = false := by simpa using hgate
      rw [process_news_main cfg env m now hb' hgate']
      have hfound := fetch_news_nonempty_kw cfg env hb'
      have hall : ∀ t ∈ (selectArticles cfg.keywords (dateLimit now)
          (fetch_news cfg.keywords env.fetchItems env.fetchFailed)
          cfg.history).1, t.article.date.isSome = true := by
        intro t ht
        have hmem := (select_sound _ _ _ _ t ht).1
        rw [hfound] at hmem
        exact hdates t.article hmem
      have hsends := send_all_ok env.sendOk _ 0 hall hsend
      simp only [hsends, hsave]
      cases m <;> simp [hsend, Except.isOk, Except.toBool]

theorem process_saved_full (cfg : Config) (env : Env) (m : Bool) (now : Int)
    (c : Config)
    (hsaved : (runObs (process_news cfg env m now)).saved = some c) :
    (runObs (process_news cfg env m now)).delivered =
      (selectArticles cfg.keywords (dateLimit now)
        (fetch_news cfg.keywords env.fetchItems env.fetchFailed)
        cfg.history).1 ∧
    c = { cfg with history := (selectArticles cfg.keywords (dateLimit now)
        (fetch_news cfg.keywords env.fetchItems env.fetchFailed)
        cfg.history).2 } := by
  by_cases hb : (ownerFalsy cfg.owner_id || cfg.keywords.isEmpty) = true
  · rw [process_news_shortcircuit cfg env m now hb] at hsaved
    exfalso
    by_cases hs0 : env.sendOk 0 = true <;>
      cases m <;> simp [hs0, runObs, Obs.init] at hsaved
  · have hb' : (ownerFalsy cfg.owner_id || cfg.keywords.isEmpty) = false := by
      simpa using hb
    by_cases hgate : (!cfg.monitoring_on && !m) = true
    · rw [process_news_gate cfg env m now hb' hgate] at hsaved
      simp [runObs, Obs.init] at hsaved
    · have hgate' : (!cfg.monitoring_on && !m) = false := by simpa using hgate
      rw [process_news_main cfg env m now hb' hgate'] at hsaved ⊢
      by_cases hflag : (send_notifications env.sendOk
          (selectArticles cfg.keywords (dateLimit now)
            (fetch_news cfg.keywords env.fetchItems env.fetchFailed)
            cfg.history).1 0).2.2 = true
      · have hdel := send_flag_all env.sendOk _ 0 hflag
        by_cases hsv : env.saveOk = true
        · simp only [hflag, hsv, if_pos] at hsaved ⊢
          cases m
          · by_cases hping : env.sendOk (send_notifications env.sendOk
                (selectArticles cfg.keywords (dateLimit now)
                  (fetch_news cfg.keywords env.fetchItems env.fetchFailed)
                  cfg.history).1 0).2.1 = true <;>
              simp [hping, runObs, hdel] at hsaved ⊢ <;>
              exact hsaved.symm
          · simp [runObs, hdel] at hsaved ⊢
            exact hsaved.symm
        · have hsv' : env.saveOk = false := by simpa using hsv
          simp [hflag, hsv', runObs] at hsaved
      · have hflag' : (send_notifications env.sendOk
            (selectArticles cfg.keywords (dateLimit now)
              (fetch_news cfg.keywords env.fetchItems env.fetchFailed)
              cfg.history).1 0).2.2 = false := by simpa using hflag
        simp [hflag', runObs] at hsaved

/-- C1: an article is selected by the filtering loop of process_news iff
its link is not in the history, its publish date (when present) is not
older than now minus the 3-day relevance window, and at least one keyword
occurs case-insensitively in its title plus source text.  The only-if
direction and the never-selected-when-in-history clause hold for every
batch; the if direction is stated for batches with pairwise-distinct
links, because a duplicated link is evaluated against the working history
grown by its first occurrence (the dedup behaviour the spec describes
separately). -/
theorem C1_selection_iff (kws : List String) (now : Int)
    (hist : Finset String) (batch : List Article) (a : Article) :
    ((∃ fk, Tagged.mk a fk ∈ (selectArticles kws (dateLimit now) batch hist).1) →
      a ∈ batch ∧ a.link ∉ hist ∧ dateTooOld a (dateLimit now) = false ∧
        kws.any (fun k => kwMatches k a) = true) ∧
    ((batch.map Article.link).Nodup → a ∈ batch → a.link ∉ hist →
      dateTooOld a (dateLimit now) = false →
      kws.any (fun k => kwMatches k a) = true →
      Tagged.mk a (kws.filter (fun k => kwMatches k a)) ∈
        (selectArticles kws (dateLimit now) batch hist).1) ∧
    (a.link ∈ hist → ∀ fk,
      Tagged.mk a fk ∉ (selectArticles kws (dateLimit now) batch hist).1) := by
  refine ⟨?_, ?_, ?_⟩
  · rintro ⟨fk, hmem⟩
    have h := select_sound kws (dateLimit now) batch hist _ hmem
    exact ⟨h.1, h.2.1, h.2.2.1, h.2.2.2.1⟩
  · exact fun hnd hmem hl hd ha =>
      select_complete kws (dateLimit now) batch hist a hnd hmem hl hd ha
  · intro hin fk hmem
    exact (select_sound kws (dateLimit now) batch hist _ hmem).2.1 hin

/-- Witness for C1: the CHUVA article is selected from a singleton batch
with empty history. -/
theorem C1_selection_iff_witness :
    Tagged.mk artChuva (["chuva"].filter (fun k => kwMatches k artChuva)) ∈
      (selectArticles ["chuva"] (dateLimit 500000) [artChuva] ∅).1 :=
  (C1_selection_iff ["chuva"] 500000 ∅ [artChuva] artChuva).2.1
    (by decide) (by decide) (by decide) (by decide) (by decide)

/-- C4: selection is idempotent with respect to the history update:
re-running the filter on the same batch with the history produced by the
first run selects nothing; and the links of the articles selected in a
single run are pairwise distinct, so a link occurring twice in one batch
is selected at most once (the first occurrence's link enters the working
history before the second is evaluated). -/
theorem C4_select_idempotent (kws : List String) (limit : Int)
    (batch : List Article) (hist : Finset String) :
    (selectArticles kws limit batch
      (selectArticles kws limit batch hist).2).1 = [] ∧
    ((selectArticles kws limit batch hist).1.map
      (fun t => t.article.link)).Nodup :=
  ⟨select_again_nil kws limit batch hist _ (Finset.Subset.refl _),
   select_links_nodup kws limit batch hist⟩

/-- C7: a keyword matches an article exactly when its lower-cased text is
a contiguous substring of the lower-cased concatenation of title, a
space, and source; and every selected article is tagged with exactly the
non-empty list of keywords that so match, in keyword-list order. -/
theorem C7_keyword_matching :
    (∀ (k : String) (a : Article),
      kwMatches k a = true ↔
        ∃ s t, s ++ lowerChars k ++ t =
          lowerChars (a.title ++ " " ++ a.source)) ∧
    (∀ (kws : List String) (limit : Int) (batch : List Article)
        (hist : Finset String) (tg : Tagged),
      tg ∈ (selectArticles kws limit batch hist).1 →
      tg.found_keywords = kws.filter (fun k => kwMatches k tg.article) ∧
        tg.found_keywords ≠ []) := by
  constructor
  · intro k a
    rw [kwMatches, decide_eq_true_iff]
    exact Iff.rfl
  · intro kws limit batch hist tg htg
    have h := select_sound kws limit batch hist tg htg
    refine ⟨h.2.2.2.2, ?_⟩
    rw [h.2.2.2.2]
    exact any_filter_ne_nil kws _ h.2.2.2.1

/-- Witness for C7: the CHUVA article selected in the C1 witness batch is
tagged with exactly the matching keyword list, which is non-empty. -/
theorem C7_keyword_matching_witness :
    (Tagged.mk artChuva ["chuva"]).found_keywords =
      ["chuva"].filter
        (fun k => kwMatches k (Tagged.mk artChuva ["chuva"]).article) ∧
    (Tagged.mk artChuva ["chuva"]).found_keywords ≠ [] :=
  C7_keyword_matching.2 ["chuva"] (dateLimit 500000) [artChuva] ∅
    (Tagged.mk artChuva ["chuva"]) (by decide)

/-- C9: the date filter never excludes an article whose publish timestamp
is absent (it can still be selected when a keyword matches and the link is
new), while every dated article strictly older than now minus the 3-day
window is never selected. -/
theorem C9_date_fail_open (now : Int) (kws : List String)
    (hist : Finset String) (batch : List Article) (a : Article) (d : Int)
    (fk : List String) :
    (a.date = none → dateTooOld a (dateLimit now) = false) ∧
    (a.date = some d → d < dateLimit now →
      Tagged.mk a fk ∉ (selectArticles kws (dateLimit now) batch hist).1) ∧
    ((batch.map Article.link).Nodup → a ∈ batch → a.date = none →
      a.link ∉ hist → kws.any (fun k => kwMatches k a) = true →
      Tagged.mk a (kws.filter (fun k => kwMatches k a)) ∈
        (selectArticles kws (dateLimit now) batch hist).1) := by
  refine ⟨?_, ?_, ?_⟩
  · intro h; simp [dateTooOld, h]
  · intro hd hlt hmem
    have h := (select_sound kws (dateLimit now) batch hist _ hmem).2.2.1
    simp [dateTooOld, hd, hlt] at h
  · intro hnd hmem hdate hlink hany
    refine select_complete kws (dateLimit now) batch hist a hnd hmem hlink ?_ hany
    simp [dateTooOld, hdate]

/-- Witness for C9: the undated CHUVA article is selected from a singleton
batch with empty history. -/
theorem C9_date_fail_open_witness :
    Tagged.mk artUndated (["chuva"].filter (fun k => kwMatches k artUndated)) ∈
      (selectArticles ["chuva"] (dateLimit 500000) [artUndated] ∅).1 :=
  (C9_date_fail_open 500000 ["chuva"] ∅ [artUndated] artUndated 0 []).2.2
    (by decide) (by decide) (by decide) (by decide) (by decide)

/-- C6: when monitoring is disabled, an automatic tick of process_news
returns immediately with no fetch and no messages of any kind, while a
manual check in the same state (with an owner and a non-empty keyword
list) still executes the fetch, bypassing the monitoring gate; the
no-keyword short circuit still applies to manual checks because it is
tested before the gate. -/
theorem C6_monitoring_gate (cfg : Config) (env : Env) (now : Int)
    (hmon : cfg.monitoring_on = false) :
    process_news cfg env false now = Except.ok Obs.init ∧
    (ownerFalsy cfg.owner_id = false → cfg.keywords ≠ [] →
      (runObs (process_news cfg env true now)).didFetch = true) := by
  constructor
  · by_cases hb : (ownerFalsy cfg.owner_id || cfg.keywords.isEmpty) = true
    · rw [process_news_shortcircuit cfg env false now hb]; simp
    · have hb' : (ownerFalsy cfg.owner_id || cfg.keywords.isEmpty) = false := by
        simpa using hb
      exact process_news_gate cfg env false now hb' (by simp [hmon])
  · intro how hkw
    have hkw' : cfg.keywords.isEmpty = false := by
      cases h : cfg.keywords with
      | nil => exact absurd h hkw
      | cons x xs => rfl
    have hb' : (ownerFalsy cfg.owner_id || cfg.keywords.isEmpty) = false := by
      simp [how, hkw']
    rw [process_news_main cfg env true now hb' (by simp)]
    by_cases hflag : (send_notifications env.sendOk
        (selectArticles cfg.keywords (dateLimit now)
          (fetch_news cfg.keywords env.fetchItems env.fetchFailed)
          cfg.history).1 0).2.2 = true
    · by_cases hsv : env.saveOk = true
      · simp [hflag, hsv, runObs]
      · have hsv' : env.saveOk = false := by simpa using hsv
        simp [hflag, hsv', runObs]
    · have hflag' : (send_notifications env.sendOk
          (selectArticles cfg.keywords (dateLimit now)
            (fetch_news cfg.keywords env.fetchItems env.fetchFailed)
            cfg.history).1 0).2.2 = false := by simpa using hflag
      simp [hflag', runObs]

/-- Witness for C6: with monitoring off, the automatic tick emits nothing
and the manual check fetches. -/
theorem C6_monitoring_gate_witness :
    process_news cfgMonOff envOk false 500000 = Except.ok Obs.init ∧
    (runObs (process_news cfgMonOff envOk true 500000)).didFetch = true :=
  ⟨(C6_monitoring_gate cfgMonOff envOk 500000 rfl).1,
   (C6_monitoring_gate cfgMonOff envOk 500000 rfl).2 rfl (by decide)⟩

/-- C2 counterexample: a single transport fault inside one automatic cycle
(the notification send for a freshly selected article raises) escapes
process_news, which contains no try/except, and monitor_loop has none
either, so the scheduler loop is no longer alive at the next iteration.
This refutes the claim that every exception in a cycle is caught at the
cycle boundary and that no cycle failure terminates the scheduler's
clock. -/
theorem C2_counterexample :
    monitorAlive (fun _ => cfgFail) (fun _ => envFail) (fun _ => 500000) 1
      = false := by decide

/-- C2 (amended): exceptions raised during the fetch step are caught
inside fetch_news, so a caught fetch failure does not change the cycle's
outcome at all (process_news is invariant in the fetchFailed flag); and
when every transport send and the config save succeed, a cycle completes
without raising.  But process_news itself catches nothing, so a transport
or save fault escapes it and, as C2_counterexample shows on the loop
model, ends the scheduler task. -/
theorem C2_cycle_fault_isolation (cfg : Config) (env : Env) (m : Bool)
    (now : Int) (b : Bool)
    (hsend : ∀ n, env.sendOk n = true) (hsave : env.saveOk = true)
    (hdates : ∀ a ∈ env.fetchItems, a.date.isSome = true) :
    (process_news cfg env m now).isOk = true ∧
    process_news cfg { env with fetchFailed := b } m now =
      process_news cfg env m now :=
  ⟨process_no_crash cfg env m now hsend hsave hdates, by cases env; rfl⟩

/-- Witness for C2: a fault-free automatic cycle completes, and toggling
the caught-fetch-failure flag does not change its outcome. -/
theorem C2_cycle_fault_isolation_witness :
    (process_news cfgFail envOk false 500000).isOk = true ∧
    process_news cfgFail { envOk with fetchFailed := true } false 500000 =
      process_news cfgFail envOk false 500000 :=
  C2_cycle_fault_isolation cfgFail envOk false 500000 true
    (fun _ => rfl) rfl (by decide)

/-- C3 counterexample: with two selected articles and a transport that
fails only on the very first send, the claim predicts that the second
article is still delivered and that the failed article's link is persisted
in the history.  The code delivers nothing (the exception aborts the batch
inside send_notifications) and never reaches save_config, so nothing at
all is persisted. -/
theorem C3_counterexample :
    (selectArticles cfgAlpha.keywords (dateLimit 500000)
      (fetch_news cfgAlpha.keywords envMidFail.fetchItems
        envMidFail.fetchFailed) cfgAlpha.history).1.length = 2 ∧
    (runObs (process_news cfgAlpha envMidFail false 500000)).delivered = [] ∧
    (runObs (process_news cfgAlpha envMidFail false 500000)).saved = none := by
  decide

/-- C3 (amended): the dispatcher sends one message per article strictly in
filter-output order and, when the transport never fails (and every
selected article carries a date), delivers exactly the whole selected
list; but a transport failure on one article aborts delivery of the
remaining articles (the delivered messages are always an initial segment
of the batch), and the history is persisted only in cycles whose whole
notification batch was delivered, so a failed article's link is not
recorded in the persisted history. -/
theorem C3_dispatch_abort (sendOk : Nat → Bool) (arts : List Tagged)
    (n0 : Nat) (cfg : Config) (env : Env) (m : Bool) (now : Int)
    (c : Config) :
    ((∀ t ∈ arts, t.article.date.isSome = true) → (∀ n, sendOk n = true) →
      send_notifications sendOk arts n0 = (arts, n0 + arts.length, true)) ∧
    (∃ r, (send_notifications sendOk arts n0).1 ++ r = arts) ∧
    ((runObs (process_news cfg env m now)).saved = some c →
      (runObs (process_news cfg env m now)).delivered =
        (selectArticles cfg.keywords (dateLimit now)
          (fetch_news cfg.keywords env.fetchItems env.fetchFailed)
          cfg.history).1) :=
  ⟨fun hd hs => send_all_ok sendOk arts n0 hd hs,
   send_delivered_takes sendOk arts n0,
   fun hsaved => (process_saved_full cfg env m now c hsaved).1⟩

/-- Witness for C3: a never-failing transport delivers the whole
two-article batch in order. -/
theorem C3_dispatch_abort_witness :
    send_notifications (fun _ => true)
      [Tagged.mk artAlpha1 ["alpha"], Tagged.mk artAlpha2 ["alpha"]] 0 =
      ([Tagged.mk artAlpha1 ["alpha"], Tagged.mk artAlpha2 ["alpha"]],
        0 + 2, true) :=
  (C3_dispatch_abort (fun _ => true)
    [Tagged.mk artAlpha1 ["alpha"], Tagged.mk artAlpha2 ["alpha"]] 0
    DEFAULT_CONFIG envOk false 500000 DEFAULT_CONFIG).1
    (by decide) (fun _ => rfl)

/-- C5 counterexample: a parsable backup document that is a JSON object of
the wrong shape (it lacks both the keywords and the monitoring_on keys) is
restored by the code: it reports success and silently replaces the
existing keyword list with the empty default, instead of reporting an
error and leaving the subscription unmodified as the claim requires. -/
theorem C5_counterexample :
    (restore_handler cfgRestore (RestoreDoc.dict none none)).2 = true ∧
    (restore_handler cfgRestore (RestoreDoc.dict none none)).1.keywords ≠
      cfgRestore.keywords := by decide

/-- C5 (amended): restore replaces only keywords and monitoringEnabled and
leaves ownerId and history untouched; a document that is unparsable or not
a JSON object reports an error and leaves the subscription unmodified; but
a JSON object missing either expected key is restored with the defaults
(empty keywords, monitoring off) and reported as a success. -/
theorem C5_restore (cfg : Config) (kw : Option (List String))
    (m : Option Bool) :
    restore_handler cfg (RestoreDoc.dict kw m) =
      ({ cfg with keywords := kw.getD [], monitoring_on := m.getD false },
        true) ∧
    (restore_handler cfg (RestoreDoc.dict kw m)).1.owner_id = cfg.owner_id ∧
    (restore_handler cfg (RestoreDoc.dict kw m)).1.history = cfg.history ∧
    restore_handler cfg RestoreDoc.unparsable = (cfg, false) ∧
    restore_handler cfg RestoreDoc.notDict = (cfg, false) :=
  ⟨rfl, rfl, rfl, rfl, rfl⟩

/-- C8 counterexample: a present but unreadable/unparsable store makes
json.load raise out of load_config (there is no try/except), so load does
not return the default subscription as the claim requires. -/
theorem C8_counterexample :
    load_config Store.corrupt ≠ Except.ok DEFAULT_CONFIG :=
  fun h => Except.noConfusion h

/-- C8 (amended): a missing backing store falls back to the default
subscription (no owner, empty keywords, monitoring disabled, empty
history) and a well-formed record loads with its history list read as a
set; but a present-and-corrupt store raises out of load_config instead of
falling back to defaults. -/
theorem C8_load_defaults :
    load_config Store.missing = Except.ok DEFAULT_CONFIG ∧
    (∀ r, load_config (Store.valid r) =
      Except.ok ⟨r.owner_id, r.keywords, r.monitoring_on,
        r.history.toFinset⟩) ∧
    load_config Store.corrupt = Except.error () :=
  ⟨rfl, fun _ => rfl, rfl⟩

/-- C10: a keyword add or remove through text_handler leaves owner_id,
monitoring_on and history unchanged, and the persisted keyword list is
sorted and duplicate-free (sorted(list(set(...)))). -/
theorem C10_keyword_frame (cfg : Config) (isAdd : Bool)
    (items : List String) :
    (text_handler cfg isAdd items).owner_id = cfg.owner_id ∧
    (text_handler cfg isAdd items).monitoring_on = cfg.monitoring_on ∧
    (text_handler cfg isAdd items).history = cfg.history ∧
    List.Sorted (fun a b => a ≤ b) (text_handler cfg isAdd items).keywords ∧
    (text_handler cfg isAdd items).keywords.Nodup :=
  ⟨rfl, rfl, rfl, Finset.sort_sorted _ _, Finset.sort_nodup _ _⟩
